import Mathlib

/-!
Verification of the generalized multi-signature authorization engine of the
aleo-multisig repository (the `multisig_core.aleo` program and its JavaScript
interface in `tests/contracts/multisig.js`).

The Leo source of `multisig_core.aleo` is not part of the source tree here;
only its tests, README and hashing utilities are. The engine's state machine
is therefore modelled from the specification (sections 3, 4 and 8), with the
behaviour observed by the test suite in `tests/contracts/multisig.js` fixing
the points where the specification defers to observed behaviour (notably the
moment the COMPLETE tombstone is written). Mappings keyed by BHP256 hashes of
composite records are modelled as association lists keyed directly by the
hashed fields: the hash is treated as an injective encoding, which is the
collision-freeness assumption the program itself relies on.

All arithmetic is carried out on `Nat`. Field elements, Aleo addresses and
ECDSA addresses are opaque identifiers modelled as `Nat`, with `0` playing the
role of the reserved zero address / zero value.
-/

namespace MultisigCore

/-- Aleo addresses (also used as wallet identifiers). `0` is the reserved zero
address `aleo1qqq...`. -/
abbrev Address := Nat

/-- Field elements, used for `signing_op_id` values and hash outputs. -/
abbrev FieldEl := Nat

/-- The reserved zero value that can never be a valid signer. -/
def ZERO_ADDRESS : Address := 0

/-- A signer identity of a wallet: either a native Aleo address or an external
ECDSA (Ethereum) address. Modelled from the spec: "tagged union/variant type
`SignerIdentity { Native(id), External(address) }`". -/
inductive SignerId where
| aleo (a : Address)
| ecdsa (e : Nat)
deriving DecidableEq, Repr

/-- Modelled from the spec: the per-wallet record stored in `wallets_map`
(`threshold` and `num_signers`, as read back by `getWallet`). -/
structure WalletSettings where
  threshold : Nat
  num_signers : Nat
deriving DecidableEq, Repr

/-- Modelled from the spec: the administrative mutation bound to an admin
signing operation, `{op, threshold, aleo_signer, ecdsa_signer}` as built by
`initAdminOp` in `tests/contracts/multisig.js`. `op` is 1 = change threshold,
2 = add signer, 3 = remove signer. -/
structure AdminOp where
  op : Nat
  threshold : Nat
  aleo_signer : Address
  ecdsa_signer : Nat
deriving DecidableEq, Repr

/-- Admin operation code for changing the threshold. -/
def ADMIN_OP_CHANGE_THRESHOLD : Nat := 1

/-- Admin operation code for adding a signer. -/
def ADMIN_OP_ADD_SIGNER : Nat := 2

/-- Admin operation code for removing a signer. -/
def ADMIN_OP_REMOVE_SIGNER : Nat := 3

/-- Modelled from the spec: a pending signing operation
(`round`, `confirmations`, `expires_at_block`), together with the optional
bound payload. The program stores the BHP256 hash of the bound admin
mutation; the hash being injective, the payload itself is stored here. -/
structure PendingSigningOp where
  round : Nat
  confirmations : Nat
  expires_at_block : Nat
  bound_payload : Option AdminOp
deriving DecidableEq, Repr

/-- Modelled from the spec: the global settings record written once by `init`
(`guard_create_wallet` flag). -/
structure ProgramSettings where
  guard_create_wallet : Bool
deriving DecidableEq, Repr

/-- Errors of the engine. Modelled from the spec's error taxonomy (section 7),
plus `NotFound` for a missing wallet, `NotInitialized` for a missing global
settings record, `GuardApprovalMissing` for guarded creation without a
completed guard operation, and `InvalidAdminOp` for an unknown admin op code.
A rejected call returns an error and no state: every rejected call leaves all
mappings unchanged. -/
inductive MsError where
| InvalidThreshold
| DuplicateWallet
| ZeroAddressSigner
| SignerTypeConflict
| SignerExists
| SignerNotFound
| UnknownSigner
| InvalidSignature
| AlreadyVoted
| OperationExpired
| OperationActive
| OperationReused
| PayloadRebindingForbidden
| ThresholdNotMet
| PayloadMismatch
| RoundMismatch
| ZeroExpiration
| NotFound
| NotInitialized
| GuardApprovalMissing
| InvalidAdminOp
deriving DecidableEq, Repr

instance {ε α : Type} [DecidableEq ε] [DecidableEq α] : DecidableEq (Except ε α)
  | .error e, .error f =>
    if h : e = f then isTrue (h ▸ rfl)
    else isFalse (fun hh => h ((Except.error.injEq e f).mp hh))
  | .error _, .ok _ => isFalse (fun hh => Except.noConfusion hh)
  | .ok _, .error _ => isFalse (fun hh => Except.noConfusion hh)
  | .ok a, .ok b =>
    if h : a = b then isTrue (h ▸ rfl)
    else isFalse (fun hh => h ((Except.ok.injEq a b).mp hh))

/-- Lookup in an association list (the model of an atomic key-value mapping). -/
def alookup {α β : Type} [DecidableEq α] : List (α × β) → α → Option β
| [], _ => none
| (k, v) :: rest, a => if k = a then some v else alookup rest a

/-- Remove a key from an association list. -/
def aremove {α β : Type} [DecidableEq α] (l : List (α × β)) (a : α) : List (α × β) :=
  l.filter (fun kv => !decide (kv.1 = a))

/-- Set a key in an association list, replacing any previous binding. -/
def aset {α β : Type} [DecidableEq α] (l : List (α × β)) (a : α) (b : β) : List (α × β) :=
  (a, b) :: aremove l a

/-- Insert a binding only if the key is absent (used for the COMPLETE
tombstone, which is created exactly once and never mutated). -/
def cinsert {α β : Type} [DecidableEq α] (l : List (α × β)) (a : α) (b : β) : List (α × β) :=
  if (alookup l a).isSome then l else (a, b) :: l

/-- Membership in a list modelling a set. -/
def listHas {α : Type} [DecidableEq α] : List α → α → Bool
| [], _ => false
| x :: rest, a => if x = a then true else listHas rest a

/-- Insert into a list modelling a set (no duplicates). -/
def listInsert {α : Type} [DecidableEq α] (l : List α) (a : α) : List α :=
  if listHas l a then l else a :: l

/-- Modelled from the spec: the full mapping state of `multisig_core.aleo`:
`program_settings_map`, `wallets_map`, `signers_map`, `pending_signing_ops`,
`completed_signing_ops` and the per-round vote records. Keys that the program
derives by hashing composite structs are modelled by the tuples of hashed
fields themselves. -/
structure EngineState where
  settings : Option ProgramSettings
  wallets : List (Address × WalletSettings)
  signers : List (Address × SignerId)
  pending : List ((Address × FieldEl) × PendingSigningOp)
  completed : List ((Address × FieldEl) × Nat)
  votes : List ((Address × FieldEl × Nat) × SignerId)
deriving DecidableEq, Repr

/-- The state of a freshly initialized program (after `init`), with the
guard-creation flag chosen. -/
def init_state (guard : Bool) : EngineState :=
  { settings := some { guard_create_wallet := guard }
    wallets := []
    signers := []
    pending := []
    completed := []
    votes := [] }

/-- The address of the `multisig_core.aleo` program itself, which acts as the
`wallet_id` of the engine's own designated guard wallet. An arbitrary fixed
non-zero identifier. -/
def multisigCoreAddress : Address := 999

/-- Whether `s` is a configured signer of wallet `w` (the `signers_map`
existence check: presence in the set-like index is the sole existence
check). -/
def is_wallet_signer (st : EngineState) (w : Address) (s : SignerId) : Bool :=
  listHas st.signers (w, s)

/-- The pending signing operation for `(w, id)`, if any
(`pending_signing_ops` lookup, as in `getPendingSigningOp`). -/
def pending_lookup (st : EngineState) (w : Address) (id : FieldEl) : Option PendingSigningOp :=
  alookup st.pending (w, id)

/-- The completed-at height recorded for `(w, id)`, if any
(`completed_signing_ops` lookup). -/
def completed_lookup (st : EngineState) (w : Address) (id : FieldEl) : Option Nat :=
  alookup st.completed (w, id)

/-- Whether a signer has already voted for `(w, id)` in round `r`. -/
def has_voted (st : EngineState) (w : Address) (id : FieldEl) (r : Nat) (s : SignerId) : Bool :=
  listHas st.votes ((w, id, r), s)

/-- Embeds `isSigningComplete` of `tests/contracts/multisig.js`: true iff the
`completed_signing_ops` mapping holds a positive completed-at block height
for the hash of `(wallet_id, signing_op_id)`. -/
def is_signing_complete (st : EngineState) (w : Address) (id : FieldEl) : Bool :=
  match completed_lookup st w id with
  | some c => decide (0 < c)
  | none => false

/-- Count of active (non-zero) signer slots in a supplied signer array;
zero-value entries are padding and are not counted. -/
def countActive (l : List Nat) : Nat :=
  (l.filter (fun a => decide (a ≠ 0))).length

/-- Injective encoding of a list of identifiers, standing in for the canonical
bit serialization that the program feeds to BHP256. -/
def encodeList : List Nat → Nat
| [] => 0
| a :: rest => Nat.pair a (encodeList rest) + 1

/-- Embeds `getGuardedCreateWalletSigningOpId` of `tests/contracts/multisig.js`:
the content-derived `signing_op_id` for a guarded wallet creation, a
structured hash of the full configuration
`{wallet_id, threshold, aleo_signers, ecdsa_signers}`. BHP256 is modelled as
an injective pairing. -/
def getGuardedCreateWalletSigningOpId (w : Address) (t : Nat) (als ecs : List Nat) : FieldEl :=
  Nat.pair w (Nat.pair t (Nat.pair (encodeList als) (encodeList ecs)))

/-- Embeds `getSigningOpIdNonceHash` of `tests/contracts/multisig.js`: the
message digest an external ECDSA signer signs, a structured hash of
`{wallet_id, signing_op_id, nonce}`. BHP256 is modelled as an injective
pairing. -/
def getSigningOpIdNonceHash (w : Address) (id : FieldEl) (nonce : Nat) : Nat :=
  Nat.pair w (Nat.pair id nonce)

/-- An ECDSA signature, modelled abstractly as the address of the key that
produced it together with the message it signs. Standard recovery yields the
producing key's address; recovery of a signature over a different message
yields an address unrelated to the claimed one. -/
structure EcdsaSig where
  signer : Nat
  signed_msg : Nat
deriving DecidableEq, Repr

/-- Whether ECDSA recovery of `sig` against message `msg` yields the claimed
address: the signature was produced by the claimed key over exactly `msg`. -/
def ecdsa_recover_ok (sig : EcdsaSig) (claimed : Nat) (msg : Nat) : Bool :=
  decide (sig.signer = claimed) && decide (sig.signed_msg = msg)

/-- Modelled from the spec (section 4.3, `initiate`), shared by
`initiate_signing_op` (unbound) and `init_admin_op` (bound): fails with
`ZeroExpiration` on a zero expiration, `OperationReused` when the COMPLETE
tombstone exists, `OperationActive` when a live pending round exists, and
`PayloadRebindingForbidden` when a stale prior round carried a different
bound payload. Otherwise it writes a fresh round (round incremented from the
stale record, or 1), counts the initiator as the first vote when the caller
is a configured signer of the wallet, and — per the behaviour observed by the
test suite (`Cannot reuse signing_op_id after completion`, scenario 1) —
writes the COMPLETE tombstone at once when the confirmation count already
meets the wallet's threshold. -/
def initiate_core (st : EngineState) (h : Nat) (caller : Address) (w : Address)
    (id : FieldEl) (exp : Nat) (payload : Option AdminOp) : Except MsError EngineState :=
  if exp = 0 then .error .ZeroExpiration else
  match alookup st.wallets w with
  | none => .error .NotFound
  | some ws =>
    if (completed_lookup st w id).isSome then .error .OperationReused else
    let prev : Except MsError Nat :=
      match pending_lookup st w id with
      | some p =>
        if h ≤ p.expires_at_block then .error .OperationActive
        else if p.bound_payload ≠ payload then .error .PayloadRebindingForbidden
        else .ok (p.round + 1)
      | none => .ok 1
    match prev with
    | .error e => .error e
    | .ok newRound =>
      let isSigner := is_wallet_signer st w (.aleo caller)
      let conf := if isSigner then 1 else 0
      let newOp : PendingSigningOp :=
        { round := newRound, confirmations := conf
          expires_at_block := h + exp, bound_payload := payload }
      let st1 : EngineState :=
        { st with
          pending := aset st.pending (w, id) newOp
          votes :=
            if isSigner then listInsert st.votes ((w, id, newRound), .aleo caller)
            else st.votes }
      if ws.threshold ≤ conf then
        .ok { st1 with completed := cinsert st1.completed (w, id) h }
      else .ok st1

/-- Embeds the `initiate_signing_op` transition: an unbound initiation. -/
def initiate_signing_op (st : EngineState) (h : Nat) (caller : Address) (w : Address)
    (id : FieldEl) (exp : Nat) : Except MsError EngineState :=
  initiate_core st h caller w id exp none

/-- Validation of an admin operation at initiation time, modelled from the
spec (section 4.1): add/remove signer require exactly one of the native and
external address fields to be set, otherwise `SignerTypeConflict`; unknown op
codes are rejected. -/
def admin_op_valid (a : AdminOp) : Option MsError :=
  if a.op = ADMIN_OP_CHANGE_THRESHOLD then none
  else if a.op = ADMIN_OP_ADD_SIGNER ∨ a.op = ADMIN_OP_REMOVE_SIGNER then
    if a.aleo_signer ≠ 0 ∧ a.ecdsa_signer ≠ 0 then some .SignerTypeConflict
    else if a.aleo_signer = 0 ∧ a.ecdsa_signer = 0 then some .SignerTypeConflict
    else none
  else some .InvalidAdminOp

/-- Embeds the `init_admin_op` transition: validates the admin mutation and
initiates a signing operation bound to it. -/
def init_admin_op (st : EngineState) (h : Nat) (caller : Address) (w : Address)
    (id : FieldEl) (exp : Nat) (a : AdminOp) : Except MsError EngineState :=
  match admin_op_valid a with
  | some e => .error e
  | none => initiate_core st h caller w id exp (some a)

/-- Modelled from the spec (section 4.3, `sign`), shared by all four sign
transitions: resolves the signer identity, fails with `UnknownSigner` if it
is not configured, `OperationExpired` if the pending record is absent or
stale (`current_height > expires_at_block`), `RoundMismatch` when an explicit
round does not equal the stored round, and `AlreadyVoted` when this signer
already voted this round. Otherwise increments `confirmations`, records the
vote, and writes the COMPLETE tombstone once the confirmation count reaches
the wallet's current threshold (behaviour observed throughout the test
suite: `isSigningComplete` flips to true on the threshold-reaching sign,
before any execute). -/
def sign_core (st : EngineState) (h : Nat) (s : SignerId) (w : Address)
    (id : FieldEl) (round? : Option Nat) : Except MsError EngineState :=
  match alookup st.wallets w with
  | none => .error .NotFound
  | some ws =>
    if ¬ is_wallet_signer st w s then .error .UnknownSigner else
    match pending_lookup st w id with
    | none => .error .OperationExpired
    | some p =>
      if p.expires_at_block < h then .error .OperationExpired else
      if (round?.getD p.round) ≠ p.round then .error .RoundMismatch else
      if has_voted st w id p.round s then .error .AlreadyVoted else
      let conf := p.confirmations + 1
      let st1 : EngineState :=
        { st with
          pending := aset st.pending (w, id) { p with confirmations := conf }
          votes := listInsert st.votes ((w, id, p.round), s) }
      if ws.threshold ≤ conf then
        .ok { st1 with completed := cinsert st1.completed (w, id) h }
      else .ok st1

/-- Embeds the `sign` transition: a native Aleo signer votes in the current
round. -/
def sign (st : EngineState) (h : Nat) (caller : Address) (w : Address)
    (id : FieldEl) : Except MsError EngineState :=
  sign_core st h (.aleo caller) w id none

/-- Embeds the `sign_for_round` transition: a native vote bound to an explicit
round. -/
def sign_for_round (st : EngineState) (h : Nat) (caller : Address) (w : Address)
    (id : FieldEl) (r : Nat) : Except MsError EngineState :=
  sign_core st h (.aleo caller) w id (some r)

/-- Modelled from the spec (section 4.2), shared by `sign_ecdsa` and
`sign_ecdsa_for_round`: computes the message digest from
`(wallet_id, signing_op_id, nonce)`, fails with `InvalidSignature` if
recovery does not yield the claimed address, then proceeds as a vote by the
external identity (which fails with `UnknownSigner` when the claimed address
is not a configured signer of the wallet). -/
def sign_ecdsa_core (st : EngineState) (h : Nat) (w : Address) (id : FieldEl)
    (claimed : Nat) (sig : EcdsaSig) (nonce : Nat) (round? : Option Nat) :
    Except MsError EngineState :=
  if ¬ ecdsa_recover_ok sig claimed (getSigningOpIdNonceHash w id nonce) then
    .error .InvalidSignature
  else sign_core st h (.ecdsa claimed) w id round?

/-- Embeds the `sign_ecdsa` transition. -/
def sign_ecdsa (st : EngineState) (h : Nat) (w : Address) (id : FieldEl)
    (claimed : Nat) (sig : EcdsaSig) (nonce : Nat) : Except MsError EngineState :=
  sign_ecdsa_core st h w id claimed sig nonce none

/-- Embeds the `sign_ecdsa_for_round` transition. -/
def sign_ecdsa_for_round (st : EngineState) (h : Nat) (w : Address) (id : FieldEl)
    (claimed : Nat) (sig : EcdsaSig) (nonce : Nat) (r : Nat) : Except MsError EngineState :=
  sign_ecdsa_core st h w id claimed sig nonce (some r)

/-- Modelled from the spec (section 4.3, `execute`): fails with
`OperationExpired` when the operation is stale or was never initiated, with
`OperationReused` when the pending record is gone because a previous execute
already consumed it (the tombstone exists), with `PayloadMismatch` when the
supplied payload differs from the one bound at initiation, and with
`ThresholdNotMet` when `confirmations` is below the wallet's current
threshold (read live). On success it consumes the pending record and ensures
the permanent COMPLETE tombstone, so a second execute on the same pair
fails. -/
def execute (st : EngineState) (h : Nat) (w : Address) (id : FieldEl)
    (payload : Option AdminOp) : Except MsError EngineState :=
  match alookup st.wallets w with
  | none => .error .NotFound
  | some ws =>
    match pending_lookup st w id with
    | none =>
      if (completed_lookup st w id).isSome then .error .OperationReused
      else .error .OperationExpired
    | some p =>
      if p.expires_at_block < h then .error .OperationExpired else
      if p.bound_payload ≠ payload then .error .PayloadMismatch else
      if p.confirmations < ws.threshold then .error .ThresholdNotMet else
      .ok { st with
              pending := aremove st.pending (w, id)
              completed := cinsert st.completed (w, id) h }

/-- The signer identity designated by an add/remove admin operation (exactly
one of the two fields is non-zero once `admin_op_valid` has passed). -/
def admin_op_signer (a : AdminOp) : SignerId :=
  if a.aleo_signer ≠ 0 then .aleo a.aleo_signer else .ecdsa a.ecdsa_signer

/-- Modelled from the spec (sections 4.1 and 4.4): the registry mutation
dispatched by `exec_admin_op` after threshold authorization. `set_threshold`
fails with `InvalidThreshold` outside `[1, num_signers]`; `add_signer` fails
with `SignerTypeConflict` on a malformed signer designation and
`SignerExists` when present; `remove_signer` fails with `SignerNotFound` when
absent and with `InvalidThreshold` when removal would leave fewer signers
than the threshold (the invariant `threshold ∈ [1, num_signers]` holds after
any successful mutation). -/
def apply_admin_op (st : EngineState) (w : Address) (ws : WalletSettings)
    (a : AdminOp) : Except MsError EngineState :=
  if a.op = ADMIN_OP_CHANGE_THRESHOLD then
    if a.threshold = 0 ∨ ws.num_signers < a.threshold then .error .InvalidThreshold
    else .ok { st with wallets := aset st.wallets w { ws with threshold := a.threshold } }
  else if a.op = ADMIN_OP_ADD_SIGNER then
    match admin_op_valid a with
    | some e => .error e
    | none =>
      let s := admin_op_signer a
      if is_wallet_signer st w s then .error .SignerExists
      else .ok { st with
                   signers := listInsert st.signers (w, s)
                   wallets := aset st.wallets w { ws with num_signers := ws.num_signers + 1 } }
  else if a.op = ADMIN_OP_REMOVE_SIGNER then
    match admin_op_valid a with
    | some e => .error e
    | none =>
      let s := admin_op_signer a
      if ¬ is_wallet_signer st w s then .error .SignerNotFound
      else if ws.num_signers - 1 < ws.threshold then .error .InvalidThreshold
      else .ok { st with
                   signers := st.signers.filter (fun x => decide (x ≠ (w, s)))
                   wallets := aset st.wallets w { ws with num_signers := ws.num_signers - 1 } }
  else .error .InvalidAdminOp

/-- Embeds the `exec_admin_op` transition: executes the signing operation with
the admin mutation as the bound payload, then dispatches the mutation. -/
def exec_admin_op (st : EngineState) (h : Nat) (w : Address) (id : FieldEl)
    (a : AdminOp) : Except MsError EngineState :=
  match execute st h w id (some a) with
  | .error e => .error e
  | .ok st1 =>
    match alookup st1.wallets w with
    | none => .error .NotFound
    | some ws => apply_admin_op st1 w ws a

/-- Modelled from the spec (sections 4.1 and 4.5): `create_wallet` fails with
`InvalidThreshold` if the threshold is 0 or exceeds the count of non-zero
signer entries, `DuplicateWallet` if the wallet id is registered, and — when
the global guard-creation mode is enabled — `GuardApprovalMissing` unless a
completed signing operation exists on the engine's own wallet whose
content-derived id is the hash of the exact configuration
`{wallet_id, threshold, aleo_signers, ecdsa_signers}`. On success it writes
the wallet settings and one `signers_map` entry per active signer slot. -/
def create_wallet (st : EngineState) (w : Address) (t : Nat)
    (als ecs : List Nat) : Except MsError EngineState :=
  match st.settings with
  | none => .error .NotInitialized
  | some ps =>
    if (alookup st.wallets w).isSome then .error .DuplicateWallet else
    let num := countActive als + countActive ecs
    if t = 0 ∨ num < t then .error .InvalidThreshold else
    if ps.guard_create_wallet &&
       ! is_signing_complete st multisigCoreAddress
           (getGuardedCreateWalletSigningOpId w t als ecs) then
      .error .GuardApprovalMissing
    else
      let s0 := (ecs.filter (fun e => decide (e ≠ 0))).foldl
        (fun acc e => listInsert acc (w, SignerId.ecdsa e)) st.signers
      let s1 := (als.filter (fun a => decide (a ≠ 0))).foldl
        (fun acc a => listInsert acc (w, SignerId.aleo a)) s0
      .ok { st with
              wallets := aset st.wallets w { threshold := t, num_signers := num }
              signers := s1 }

/-- The signer identities recorded as having voted for `(w, id)` in round `r`
(the SignerVote records of the data model). -/
def round_voters (st : EngineState) (w : Address) (id : FieldEl) (r : Nat) : List SignerId :=
  (st.votes.filter (fun v => decide (v.1 = (w, id, r)))).map Prod.snd

/-- The wallet-registry invariant of the spec (section 8): for all wallets,
`threshold ∈ [1, num_signers]`. -/
def wallets_ok (st : EngineState) : Prop :=
  ∀ kv ∈ st.wallets, 1 ≤ kv.2.threshold ∧ kv.2.threshold ≤ kv.2.num_signers

instance (st : EngineState) : Decidable (wallets_ok st) := by
  unfold wallets_ok
  infer_instance

/-- A concrete state used to instantiate the general theorems: wallet `5` with
threshold 2 and three signers (native `1` and `2`, external `21`), a pending
unbound operation `7` in round 1 with one confirmation (by native signer `1`)
expiring at block 20. -/
def sampleState : EngineState :=
  { settings := some { guard_create_wallet := false }
    wallets := [(5, { threshold := 2, num_signers := 3 })]
    signers := [(5, .aleo 1), (5, .aleo 2), (5, .ecdsa 21)]
    pending := [((5, 7), { round := 1, confirmations := 1
                           expires_at_block := 20, bound_payload := none })]
    completed := []
    votes := [((5, 7, 1), .aleo 1)] }

/-- `sampleState` after operation `7` has been completed at block 12. -/
def completedState : EngineState :=
  { sampleState with completed := [((5, 7), 12)] }

/-- `sampleState` with operation `7` holding two confirmations (threshold met),
ready to be executed. -/
def execReadyState : EngineState :=
  { sampleState with
      pending := [((5, 7), { round := 1, confirmations := 2
                             expires_at_block := 20, bound_payload := none })]
      votes := [((5, 7, 1), .aleo 1), ((5, 7, 1), .aleo 2)] }

/-- The state produced by executing operation `7` of `execReadyState` at
block 20. -/
def execDoneState : EngineState :=
  { execReadyState with pending := [], completed := [((5, 7), 20)] }

/-- A fresh wallet `5` with threshold 1 and sole native signer `1`, no
operations yet. -/
def soloWalletState : EngineState :=
  { settings := some { guard_create_wallet := false }
    wallets := [(5, { threshold := 1, num_signers := 1 })]
    signers := [(5, .aleo 1)]
    pending := []
    completed := []
    votes := [] }

/-- A guard-creation-mode state: the engine's own wallet has threshold 1 with
native signer `1`, and a completed guard operation (at block 15) approving
the creation of wallet `6` with threshold 1 and sole native signer `2`. -/
def guardReadyState : EngineState :=
  { settings := some { guard_create_wallet := true }
    wallets := [(multisigCoreAddress, { threshold := 1, num_signers := 1 })]
    signers := [(multisigCoreAddress, .aleo 1)]
    pending := []
    completed := [((multisigCoreAddress,
                    getGuardedCreateWalletSigningOpId 6 1 [2, 0, 0, 0] [0, 0, 0, 0]), 15)]
    votes := [] }

/-- The state produced by `create_wallet` on `guardReadyState` for wallet `6`
with threshold 1 and sole native signer `2`. -/
def guardDoneState : EngineState :=
  { guardReadyState with
      wallets := [(6, { threshold := 1, num_signers := 1 }),
                  (multisigCoreAddress, { threshold := 1, num_signers := 1 })]
      signers := [(6, .aleo 2), (multisigCoreAddress, .aleo 1)] }

/-- The state produced by `initiate_signing_op` on `soloWalletState` at block
10 with expiration 5: the sole signer initiated, so the operation completed
at once. -/
def soloDoneState : EngineState :=
  { soloWalletState with
      pending := [((5, 7), { round := 1, confirmations := 1
                             expires_at_block := 15, bound_payload := none })]
      completed := [((5, 7), 10)]
      votes := [((5, 7, 1), .aleo 1)] }

/-- `sampleState` with operation `7` bound to the admin mutation "set
threshold to 1" and already holding two confirmations, ready for
`exec_admin_op`. -/
def adminReadyState : EngineState :=
  { sampleState with
      pending := [((5, 7), { round := 1, confirmations := 2
                             expires_at_block := 20
                             bound_payload := some { op := 1, threshold := 1
                                                     aleo_signer := 0, ecdsa_signer := 0 } })]
      votes := [((5, 7, 1), .aleo 1), ((5, 7, 1), .aleo 2)] }

/-- The state produced by `exec_admin_op` on `adminReadyState` at block 20:
the operation is consumed and tombstoned and the threshold of wallet `5` is
now 1. -/
def adminDoneState : EngineState :=
  { adminReadyState with
      wallets := [(5, { threshold := 1, num_signers := 3 })]
      pending := []
      completed := [((5, 7), 20)] }

end MultisigCore


namespace MultisigCore

/-- Lookup after removing a key: the removed key is gone, others unchanged. -/
theorem alookup_aremove {α β : Type} [DecidableEq α] (l : List (α × β)) (a x : α) :
    alookup (aremove l a) x = if a = x then none else alookup l x := by
  induction l with
  | nil => simp [aremove, alookup]
  | cons kv rest ih =>
    obtain ⟨k, v⟩ := kv
    by_cases hka : k = a
    · subst hka
      by_cases hkx : k = x
      · subst hkx
        simp only [aremove, List.filter_cons] at ih ⊢
        simp [alookup, ih]
      · simp only [aremove, List.filter_cons] at ih ⊢
        simp [alookup, ih, hkx]
    · by_cases hkx : k = x
      · subst hkx
        have hax : ¬ a = k := fun hh => hka hh.symm
        simp only [aremove, List.filter_cons] at ih ⊢
        simp [alookup, hka, hax]
      · simp only [aremove, List.filter_cons] at ih ⊢
        simp [alookup, hka, hkx, ih]

/-- Lookup after setting a key: the set key maps to the new value. -/
theorem alookup_aset {α β : Type} [DecidableEq α] (l : List (α × β)) (a : α) (b : β) (x : α) :
    alookup (aset l a b) x = if a = x then some b else alookup l x := by
  simp only [aset, alookup]
  by_cases hax : a = x
  · simp [hax]
  · simp [hax, alookup_aremove]

/-- Lookup after a conditional insert. -/
theorem alookup_cinsert {α β : Type} [DecidableEq α] (l : List (α × β)) (a : α) (b : β) (x : α) :
    alookup (cinsert l a b) x =
      if (alookup l a).isSome then alookup l x
      else if a = x then some b else alookup l x := by
  simp only [cinsert]
  by_cases hs : (alookup l a).isSome
  · simp [hs]
  · simp [hs, alookup]

/-- After a conditional insert the key is always present. -/
theorem completed_cinsert_isSome {l : List ((Nat × Nat) × Nat)} {k : Nat × Nat} {v : Nat} :
    (alookup (cinsert l k v) k).isSome = true := by
  rw [alookup_cinsert]
  by_cases hx : (alookup l k).isSome <;> simp [hx]

/-- A membership in a set-modelling list after insertion. -/
theorem listHas_listInsert_self {α : Type} [DecidableEq α] (l : List α) (a : α) :
    listHas (listInsert l a) a = true := by
  simp only [listInsert]
  by_cases h : listHas l a = true
  · simp [h]
  · simp [h, listHas]

/-- Inserting an absent element prepends it. -/
theorem listInsert_of_not_has {α : Type} [DecidableEq α] {l : List α} {a : α}
    (h : listHas l a = false) : listInsert l a = a :: l := by
  simp [listInsert, h]

/-- An element of `aset l a b` is the new binding or an element of `l`. -/
theorem mem_aset {α β : Type} [DecidableEq α] {l : List (α × β)} {a : α} {b : β}
    {kv : α × β} (h : kv ∈ aset l a b) : kv = (a, b) ∨ kv ∈ l := by
  rcases List.mem_cons.mp h with h | h
  · exact Or.inl h
  · exact Or.inr (List.mem_filter.mp h).1

/-- A successful lookup witnesses membership. -/
theorem alookup_mem {α β : Type} [DecidableEq α] {l : List (α × β)} {a : α} {b : β}
    (h : alookup l a = some b) : (a, b) ∈ l := by
  induction l with
  | nil => simp [alookup] at h
  | cons kv rest ih =>
    simp only [alookup] at h
    by_cases hk : kv.1 = a
    · rw [if_pos hk] at h
      obtain rfl := (Option.some.injEq _ _).mp h
      have hkv : (a, kv.2) = kv := by rw [← hk]
      rw [hkv]
      exact List.mem_cons_self _ _
    · rw [if_neg hk] at h
      exact List.mem_cons_of_mem _ (ih h)

/-- Success shape of `initiate_core` on a stale prior round with the same
bound payload. -/
theorem initiate_core_stale_ok {st : EngineState} {h caller w id exp : Nat}
    {payload : Option AdminOp} {ws : WalletSettings} {p : PendingSigningOp}
    (hexp : exp ≠ 0)
    (hw : alookup st.wallets w = some ws)
    (hc : completed_lookup st w id = none)
    (hp : pending_lookup st w id = some p)
    (hst : p.expires_at_block < h)
    (hpl : p.bound_payload = payload) :
    initiate_core st h caller w id exp payload =
      .ok { st with
              pending := aset st.pending (w, id)
                { round := p.round + 1
                  confirmations := if is_wallet_signer st w (.aleo caller) then 1 else 0
                  expires_at_block := h + exp, bound_payload := payload }
              completed :=
                if ws.threshold ≤ (if is_wallet_signer st w (.aleo caller) then 1 else 0) then
                  cinsert st.completed (w, id) h
                else st.completed
              votes :=
                if is_wallet_signer st w (.aleo caller) then
                  listInsert st.votes ((w, id, p.round + 1), .aleo caller)
                else st.votes } := by
  have hnl : ¬ h ≤ p.expires_at_block := by omega
  simp only [initiate_core, hexp, hw, hc, hp, hpl, hnl, if_neg, ite_false,
    Option.isSome_none, Bool.false_eq_true, ne_eq, not_true_eq_false]
  by_cases hth : ws.threshold ≤ (if is_wallet_signer st w (.aleo caller) then 1 else 0) <;>
    simp [hth]

/-- Success shape of `initiate_core` on a fresh operation id. -/
theorem initiate_core_fresh_ok {st : EngineState} {h caller w id exp : Nat}
    {payload : Option AdminOp} {ws : WalletSettings}
    (hexp : exp ≠ 0)
    (hw : alookup st.wallets w = some ws)
    (hc : completed_lookup st w id = none)
    (hp : pending_lookup st w id = none) :
    initiate_core st h caller w id exp payload =
      .ok { st with
              pending := aset st.pending (w, id)
                { round := 1
                  confirmations := if is_wallet_signer st w (.aleo caller) then 1 else 0
                  expires_at_block := h + exp, bound_payload := payload }
              completed :=
                if ws.threshold ≤ (if is_wallet_signer st w (.aleo caller) then 1 else 0) then
                  cinsert st.completed (w, id) h
                else st.completed
              votes :=
                if is_wallet_signer st w (.aleo caller) then
                  listInsert st.votes ((w, id, 1), .aleo caller)
                else st.votes } := by
  simp only [initiate_core, hexp, hw, hc, hp, if_neg, ite_false,
    Option.isSome_none, Bool.false_eq_true, ne_eq, not_true_eq_false]
  by_cases hth : ws.threshold ≤ (if is_wallet_signer st w (.aleo caller) then 1 else 0) <;>
    simp [hth]

/-- Success shape of `sign_core` for a configured signer voting in a live
round it has not voted in. -/
theorem sign_core_ok {st : EngineState} {h : Nat} {s : SignerId} {w id : Nat}
    {round? : Option Nat} {ws : WalletSettings} {p : PendingSigningOp}
    (hw : alookup st.wallets w = some ws)
    (hs : is_wallet_signer st w s = true)
    (hp : pending_lookup st w id = some p)
    (hst : h ≤ p.expires_at_block)
    (hr : round?.getD p.round = p.round)
    (hv : has_voted st w id p.round s = false) :
    sign_core st h s w id round? =
      .ok { st with
              pending := aset st.pending (w, id) { p with confirmations := p.confirmations + 1 }
              completed :=
                if ws.threshold ≤ p.confirmations + 1 then cinsert st.completed (w, id) h
                else st.completed
              votes := listInsert st.votes ((w, id, p.round), s) } := by
  have hnl : ¬ p.expires_at_block < h := by omega
  simp only [sign_core, hw, hs, hp, hr, hv, hnl, if_neg, ite_false,
    Bool.false_eq_true, ne_eq, not_true_eq_false, not_false_eq_true, if_true]
  by_cases hth : ws.threshold ≤ p.confirmations + 1 <;> simp [hth]

/-- Inversion of a successful `execute`: the wallet and a live pending round
with matching payload and met threshold existed, and the result consumes the
pending record while ensuring the tombstone. -/
theorem execute_ok_inv {st : EngineState} {h w id : Nat} {payload : Option AdminOp}
    {st2 : EngineState} (hrun : execute st h w id payload = .ok st2) :
    ∃ ws p, alookup st.wallets w = some ws ∧ pending_lookup st w id = some p ∧
      h ≤ p.expires_at_block ∧ p.bound_payload = payload ∧
      ws.threshold ≤ p.confirmations ∧
      st2 = { st with
                pending := aremove st.pending (w, id)
                completed := cinsert st.completed (w, id) h } := by
  cases hw : alookup st.wallets w with
  | none => simp [execute, hw] at hrun
  | some ws =>
    cases hp : pending_lookup st w id with
    | none =>
      by_cases hc : (completed_lookup st w id).isSome <;> simp [execute, hw, hp, hc] at hrun
    | some p =>
      by_cases hst : p.expires_at_block < h
      · simp [execute, hw, hp, hst] at hrun
      · by_cases hpm : p.bound_payload = payload
        · by_cases hth : p.confirmations < ws.threshold
          · simp [execute, hw, hp, hst, hpm, hth] at hrun
          · have hres : execute st h w id payload =
                .ok { st with
                        pending := aremove st.pending (w, id)
                        completed := cinsert st.completed (w, id) h } := by
              simp [execute, hw, hp, hst, hpm, hth]
            rw [hres, Except.ok.injEq] at hrun
            exact ⟨ws, p, rfl, rfl, by omega, hpm, by omega, hrun.symm⟩
        · simp [execute, hw, hp, hst, hpm] at hrun

/-- The injective-encoding property of `encodeList`. -/
theorem encodeList_inj {l1 l2 : List Nat} :
    encodeList l1 = encodeList l2 ↔ l1 = l2 := by
  constructor
  · intro h
    induction l1 generalizing l2 with
    | nil =>
      cases l2 with
      | nil => rfl
      | cons b bs => simp [encodeList] at h
    | cons a xs ih =>
      cases l2 with
      | nil => simp [encodeList] at h
      | cons b bs =>
        simp only [encodeList, Nat.add_right_cancel_iff] at h
        obtain ⟨hab, htl⟩ := Nat.pair_eq_pair.mp h
        rw [hab, ih htl]
  · rintro rfl
    rfl

/-- A successful registry mutation dispatched by `exec_admin_op` preserves the
wallet-threshold invariant. -/
theorem apply_admin_op_preserves {st : EngineState} {w : Nat} {ws : WalletSettings}
    {a : AdminOp} {st2 : EngineState}
    (hok : wallets_ok st)
    (hw : alookup st.wallets w = some ws)
    (hrun : apply_admin_op st w ws a = .ok st2) :
    wallets_ok st2 := by
  have hwmem : (w, ws) ∈ st.wallets := alookup_mem hw
  have hws : 1 ≤ ws.threshold ∧ ws.threshold ≤ ws.num_signers := hok _ hwmem
  by_cases h1 : a.op = ADMIN_OP_CHANGE_THRESHOLD
  · by_cases hbad : a.threshold = 0 ∨ ws.num_signers < a.threshold
    · simp [apply_admin_op, h1, hbad] at hrun
    · obtain ⟨ht0, hlt⟩ := not_or.mp hbad
      have hres : apply_admin_op st w ws a =
          .ok { st with wallets := aset st.wallets w { ws with threshold := a.threshold } } := by
        simp [apply_admin_op, h1, hbad]
      rw [hres, Except.ok.injEq] at hrun
      subst hrun
      intro kv hkv
      rcases mem_aset hkv with rfl | hmem
      · constructor <;> simp <;> omega
      · exact hok _ hmem
  · by_cases h2 : a.op = ADMIN_OP_ADD_SIGNER
    · cases hav : admin_op_valid a with
      | some e =>
        simp [apply_admin_op, h1, h2, hav,
          ADMIN_OP_CHANGE_THRESHOLD, ADMIN_OP_ADD_SIGNER] at hrun
      | none =>
        by_cases hmem : is_wallet_signer st w (admin_op_signer a)
        · simp [apply_admin_op, h1, h2, hav, hmem,
            ADMIN_OP_CHANGE_THRESHOLD, ADMIN_OP_ADD_SIGNER] at hrun
        · have hres : apply_admin_op st w ws a =
              .ok { st with
                      signers := listInsert st.signers (w, admin_op_signer a)
                      wallets := aset st.wallets w
                        { ws with num_signers := ws.num_signers + 1 } } := by
            simp [apply_admin_op, h1, h2, hav, hmem,
              ADMIN_OP_CHANGE_THRESHOLD, ADMIN_OP_ADD_SIGNER]
          rw [hres, Except.ok.injEq] at hrun
          subst hrun
          intro kv hkv
          rcases mem_aset hkv with rfl | hmem2
          · constructor <;> simp <;> omega
          · exact hok _ hmem2
    · by_cases h3 : a.op = ADMIN_OP_REMOVE_SIGNER
      · cases hav : admin_op_valid a with
        | some e =>
          simp [apply_admin_op, h1, h2, h3, hav,
            ADMIN_OP_CHANGE_THRESHOLD, ADMIN_OP_ADD_SIGNER, ADMIN_OP_REMOVE_SIGNER] at hrun
        | none =>
          by_cases hmem : is_wallet_signer st w (admin_op_signer a)
          · by_cases hlow : ws.num_signers - 1 < ws.threshold
            · simp [apply_admin_op, h1, h2, h3, hav, hmem, hlow,
                ADMIN_OP_CHANGE_THRESHOLD, ADMIN_OP_ADD_SIGNER, ADMIN_OP_REMOVE_SIGNER] at hrun
            · have hres : apply_admin_op st w ws a =
                  .ok { st with
                          signers := st.signers.filter
                            (fun x => decide (x ≠ (w, admin_op_signer a)))
                          wallets := aset st.wallets w
                            { ws with num_signers := ws.num_signers - 1 } } := by
                simp [apply_admin_op, h1, h2, h3, hav, hmem, hlow,
                  ADMIN_OP_CHANGE_THRESHOLD, ADMIN_OP_ADD_SIGNER, ADMIN_OP_REMOVE_SIGNER]
              rw [hres, Except.ok.injEq] at hrun
              subst hrun
              intro kv hkv
              rcases mem_aset hkv with rfl | hmem2
              · constructor <;> simp <;> omega
              · exact hok _ hmem2
          · simp [apply_admin_op, h1, h2, h3, hav, hmem,
              ADMIN_OP_CHANGE_THRESHOLD, ADMIN_OP_ADD_SIGNER, ADMIN_OP_REMOVE_SIGNER] at hrun
      · simp [apply_admin_op, h1, h2, h3] at hrun
/-- C1 counterexample: the claim is refuted on the code. For a wallet with
threshold 1 whose sole signer initiates an operation, `is_signing_complete`
is already true right after the `initiate` call, with the tombstone recorded
at the initiation height, although `execute` was never called — exactly the
behaviour asserted by the test `Cannot reuse signing_op_id after completion`
(scenario 1), and contrary to the claim's "stays false until execute is
called". -/
theorem threshold_one_completes_without_execute :
    ((create_wallet (init_state false) 5 1 [1] []).bind (fun st1 =>
      (initiate_signing_op st1 10 1 5 7 5).map (fun st2 =>
        (is_signing_complete st2 5 7, completed_lookup st2 5 7)))) =
      .ok (true, some 10) := by
  decide

/-- C1 amended: `is_signing_complete` is true iff a positive-height COMPLETE
tombstone exists, and the tombstone is written by the signing flow itself as
soon as confirmations reach the wallet's threshold, not only by execute: for
a wallet with threshold 1 whose sole signer initiates an operation at a
positive height, `is_signing_complete` is true immediately after `initiate`,
and any later initiation of the same id fails with `OperationReused`. -/
theorem signing_completion_via_threshold :
    (∀ (st : EngineState) (w id : Nat),
        is_signing_complete st w id = true ↔
          ∃ c, completed_lookup st w id = some c ∧ 0 < c) ∧
    (∀ (st : EngineState) (h caller w id exp : Nat) (ws : WalletSettings),
        alookup st.wallets w = some ws →
        ws.threshold = 1 →
        is_wallet_signer st w (.aleo caller) = true →
        completed_lookup st w id = none →
        pending_lookup st w id = none →
        exp ≠ 0 →
        0 < h →
        ∃ st2, initiate_signing_op st h caller w id exp = .ok st2 ∧
          is_signing_complete st2 w id = true ∧
          completed_lookup st2 w id = some h ∧
          ∀ (h2 caller2 exp2 : Nat) (payload2 : Option AdminOp),
            exp2 ≠ 0 →
            initiate_core st2 h2 caller2 w id exp2 payload2 =
              .error .OperationReused) := by
  constructor
  · intro st w id
    unfold is_signing_complete
    cases hcc : completed_lookup st w id <;> simp
  · intro st h caller w id exp ws hw hth hsig hc hp hexp hh
    have hcomp2 : alookup
        (cinsert st.completed (w, id) h) (w, id) = some h := by
      rw [alookup_cinsert]
      simp [completed_lookup] at hc
      simp [hc]
    refine ⟨_, by unfold initiate_signing_op; exact initiate_core_fresh_ok hexp hw hc hp,
      ?_, ?_, ?_⟩
    · simp only [is_signing_complete, completed_lookup, hsig, hth, if_true, le_refl]
      simp [hcomp2, hh]
    · simp only [completed_lookup, hsig, hth, if_true, le_refl]
      simp [hcomp2]
    · intro h2 caller2 exp2 payload2 hexp2
      have hsome : (alookup (cinsert st.completed (w, id) h) (w, id)).isSome = true := by
        rw [hcomp2]
        rfl
      simp only [initiate_core, hexp2, hw, hsig, hth, if_true, le_refl, completed_lookup]
      simp [hsome, hexp2, hw]

/-- Witness for the C1 amended theorem at `soloWalletState`. -/
theorem signing_completion_via_threshold_witness :
    ∃ st2, initiate_signing_op soloWalletState 10 1 5 7 5 = .ok st2 ∧
      is_signing_complete st2 5 7 = true ∧
      completed_lookup st2 5 7 = some 10 ∧
      ∀ (h2 caller2 exp2 : Nat) (payload2 : Option AdminOp),
        exp2 ≠ 0 →
        initiate_core st2 h2 caller2 5 7 exp2 payload2 = .error .OperationReused :=
  signing_completion_via_threshold.2 soloWalletState 10 1 5 7 5
    { threshold := 1, num_signers := 1 }
    (by decide) rfl (by decide) (by decide) (by decide) (by decide) (by decide)

/-- C2: in guard-creation mode, a successful `create_wallet` requires a
completed signing operation on the engine's own wallet whose content-derived
id is the hash of the exact full configuration, and that hash is injective
in the full configuration — approval is bound to the configuration, not
merely to the wallet id. -/
theorem guarded_create_wallet_binding :
    (∀ (st : EngineState) (w t : Nat) (als ecs : List Nat)
        (ps : ProgramSettings) (st2 : EngineState),
        st.settings = some ps →
        ps.guard_create_wallet = true →
        create_wallet st w t als ecs = .ok st2 →
        is_signing_complete st multisigCoreAddress
          (getGuardedCreateWalletSigningOpId w t als ecs) = true) ∧
    (∀ (w t : Nat) (als ecs : List Nat) (w2 t2 : Nat) (als2 ecs2 : List Nat),
        getGuardedCreateWalletSigningOpId w t als ecs =
          getGuardedCreateWalletSigningOpId w2 t2 als2 ecs2 ↔
        w = w2 ∧ t = t2 ∧ als = als2 ∧ ecs = ecs2) := by
  constructor
  · intro st w t als ecs ps st2 hset hguard hrun
    by_cases hcmp : is_signing_complete st multisigCoreAddress
        (getGuardedCreateWalletSigningOpId w t als ecs) = true
    · exact hcmp
    · exfalso
      rw [Bool.not_eq_true] at hcmp
      by_cases hdup : (alookup st.wallets w).isSome
      · simp [create_wallet, hset, hdup] at hrun
      · by_cases hthr : t = 0 ∨ countActive als + countActive ecs < t
        · simp [create_wallet, hset, hdup, hthr] at hrun
        · simp [create_wallet, hset, hdup, hthr, hguard, hcmp] at hrun
  · intro w t als ecs w2 t2 als2 ecs2
    constructor
    · intro h
      unfold getGuardedCreateWalletSigningOpId at h
      obtain ⟨hw, h⟩ := Nat.pair_eq_pair.mp h
      obtain ⟨ht, h⟩ := Nat.pair_eq_pair.mp h
      obtain ⟨hals, hecs⟩ := Nat.pair_eq_pair.mp h
      exact ⟨hw, ht, encodeList_inj.mp hals, encodeList_inj.mp hecs⟩
    · rintro ⟨rfl, rfl, rfl, rfl⟩
      rfl

/-- Witness for C2 at `guardReadyState`. -/
theorem guarded_create_wallet_binding_witness :
    is_signing_complete guardReadyState multisigCoreAddress
      (getGuardedCreateWalletSigningOpId 6 1 [2, 0, 0, 0] [0, 0, 0, 0]) = true :=
  guarded_create_wallet_binding.1 guardReadyState 6 1 [2, 0, 0, 0] [0, 0, 0, 0]
    { guard_create_wallet := true } guardDoneState rfl rfl (by decide)

/-- C3: a COMPLETE tombstone makes every later `initiate` on the pair fail
with `OperationReused` (for any caller, height, expiration and payload), and
after a successful `execute` any second `execute` on the pair fails with
`OperationReused`. A failing call returns an error and no state, so the
mappings are untouched. -/
theorem tombstone_is_permanent :
    (∀ (st : EngineState) (h caller w id exp : Nat) (payload : Option AdminOp)
        (ws : WalletSettings) (c : Nat),
        exp ≠ 0 →
        alookup st.wallets w = some ws →
        completed_lookup st w id = some c →
        initiate_core st h caller w id exp payload = .error .OperationReused) ∧
    (∀ (st : EngineState) (h w id : Nat) (payload : Option AdminOp) (st2 : EngineState),
        execute st h w id payload = .ok st2 →
        ∀ (h2 : Nat) (payload2 : Option AdminOp),
          execute st2 h2 w id payload2 = .error .OperationReused) := by
  constructor
  · intro st h caller w id exp payload ws c hexp hw hc
    simp [initiate_core, hexp, hw, hc]
  · intro st h w id payload st2 hrun h2 payload2
    obtain ⟨ws, p, hw, hp, hst, hpm, hth, rfl⟩ := execute_ok_inv hrun
    have hpend : alookup (aremove st.pending (w, id)) (w, id) = none := by
      rw [alookup_aremove]
      simp
    have hcomp : (alookup (cinsert st.completed (w, id) h) (w, id)).isSome = true :=
      completed_cinsert_isSome
    simp [execute, pending_lookup, completed_lookup, hw, hpend, hcomp]

/-- Witness for C3: a tombstoned pair rejects `initiate`, and re-executing an
already executed operation fails. -/
theorem tombstone_is_permanent_witness :
    initiate_core completedState 30 3 5 7 9 none = .error .OperationReused ∧
    execute execDoneState 21 5 7 none = .error .OperationReused :=
  ⟨tombstone_is_permanent.1 completedState 30 3 5 7 9 none
      { threshold := 2, num_signers := 3 } 12 (by decide) (by decide) (by decide),
   tombstone_is_permanent.2 execReadyState 20 5 7 none execDoneState (by decide) 21 none⟩

/-- C4: a signer who already voted in the current round gets `AlreadyVoted`
(the call returns an error and no state, so confirmations are unchanged),
and a successful vote by a fresh signer increments both `confirmations` and
the set of distinct voters of the round, preserving
`confirmations ≤ distinct voters`. -/
theorem confirmations_bounded_by_round_voters :
    (∀ (st : EngineState) (h : Nat) (s : SignerId) (w id : Nat)
        (ws : WalletSettings) (p : PendingSigningOp),
        alookup st.wallets w = some ws →
        is_wallet_signer st w s = true →
        pending_lookup st w id = some p →
        h ≤ p.expires_at_block →
        has_voted st w id p.round s = true →
        sign_core st h s w id none = .error .AlreadyVoted) ∧
    (∀ (st : EngineState) (h : Nat) (s : SignerId) (w id : Nat)
        (ws : WalletSettings) (p : PendingSigningOp),
        alookup st.wallets w = some ws →
        is_wallet_signer st w s = true →
        pending_lookup st w id = some p →
        h ≤ p.expires_at_block →
        has_voted st w id p.round s = false →
        p.confirmations ≤ (round_voters st w id p.round).length →
        ∃ st2, sign_core st h s w id none = .ok st2 ∧
          pending_lookup st2 w id = some { p with confirmations := p.confirmations + 1 } ∧
          round_voters st2 w id p.round = s :: round_voters st w id p.round ∧
          p.confirmations + 1 ≤ (round_voters st2 w id p.round).length) := by
  constructor
  · intro st h s w id ws p hw hs hp hst hv
    have hnl : ¬ p.expires_at_block < h := by omega
    simp [sign_core, hw, hs, hp, hv, hnl]
  · intro st h s w id ws p hw hs hp hst hv hconf
    have hins : listInsert st.votes ((w, id, p.round), s) = ((w, id, p.round), s) :: st.votes :=
      listInsert_of_not_has hv
    refine ⟨_, sign_core_ok hw hs hp hst rfl hv, ?_, ?_, ?_⟩
    · simp [pending_lookup, alookup_aset]
    · simp [round_voters, hins, List.filter_cons]
    · simp only [round_voters, List.length_map] at hconf ⊢
      rw [hins]
      simp [List.filter_cons]
      omega

/-- Witness for C4 at `sampleState`: native signer 1 (who initiated) is
rejected with `AlreadyVoted`, native signer 2 votes successfully. -/
theorem confirmations_bounded_by_round_voters_witness :
    sign_core sampleState 15 (.aleo 1) 5 7 none = .error .AlreadyVoted ∧
    ∃ st2, sign_core sampleState 15 (.aleo 2) 5 7 none = .ok st2 ∧
      pending_lookup st2 5 7 = some
        { round := 1, confirmations := 2, expires_at_block := 20, bound_payload := none } ∧
      round_voters st2 5 7 1 = .aleo 2 :: round_voters sampleState 5 7 1 ∧
      2 ≤ (round_voters st2 5 7 1).length :=
  ⟨confirmations_bounded_by_round_voters.1 sampleState 15 (.aleo 1) 5 7
      { threshold := 2, num_signers := 3 }
      { round := 1, confirmations := 1, expires_at_block := 20, bound_payload := none }
      (by decide) (by decide) (by decide) (by decide) (by decide),
   confirmations_bounded_by_round_voters.2 sampleState 15 (.aleo 2) 5 7
      { threshold := 2, num_signers := 3 }
      { round := 1, confirmations := 1, expires_at_block := 20, bound_payload := none }
      (by decide) (by decide) (by decide) (by decide) (by decide) (by decide)⟩

/-- C5: re-initiating a stale, uncompleted, unbound operation succeeds for
any caller (also a non-signer), increments the round by one, and resets
`confirmations` to 1 with the initiator recorded as having voted when the
initiator is a configured signer, or to 0 with no vote recorded when it is
not. -/
theorem stale_unbound_reinitiate :
    ∀ (st : EngineState) (h caller w id exp : Nat)
      (ws : WalletSettings) (p : PendingSigningOp),
      exp ≠ 0 →
      alookup st.wallets w = some ws →
      completed_lookup st w id = none →
      pending_lookup st w id = some p →
      p.expires_at_block < h →
      p.bound_payload = none →
      has_voted st w id (p.round + 1) (.aleo caller) = false →
      ∃ st2, initiate_signing_op st h caller w id exp = .ok st2 ∧
        pending_lookup st2 w id = some
          { round := p.round + 1
            confirmations := if is_wallet_signer st w (.aleo caller) then 1 else 0
            expires_at_block := h + exp, bound_payload := none } ∧
        has_voted st2 w id (p.round + 1) (.aleo caller) = is_wallet_signer st w (.aleo caller) := by
  intro st h caller w id exp ws p hexp hw hc hp hst hpl hnov
  refine ⟨_, by unfold initiate_signing_op; exact initiate_core_stale_ok hexp hw hc hp hst hpl,
    ?_, ?_⟩
  · simp [pending_lookup, alookup_aset]
  · by_cases hsig : is_wallet_signer st w (.aleo caller)
    · simp [has_voted, hsig, listHas_listInsert_self]
    · simp only [Bool.not_eq_true] at hsig
      simp only [has_voted, hsig, Bool.false_eq_true, if_false, ite_false] at hnov ⊢
      exact hnov

/-- Witness for C5 at `sampleState`, re-initiated at block 25 by address 3,
which is not a configured signer: the call succeeds with round 2 and zero
confirmations. -/
theorem stale_unbound_reinitiate_witness :
    ∃ st2, initiate_signing_op sampleState 25 3 5 7 9 = .ok st2 ∧
      pending_lookup st2 5 7 = some
        { round := 2, confirmations := 0, expires_at_block := 34, bound_payload := none } ∧
      has_voted st2 5 7 2 (.aleo 3) = false :=
  stale_unbound_reinitiate sampleState 25 3 5 7 9
    { threshold := 2, num_signers := 3 }
    { round := 1, confirmations := 1, expires_at_block := 20, bound_payload := none }
    (by decide) (by decide) (by decide) (by decide) (by decide) (by decide) (by decide)

/-- C6: re-initiation after expiry with a bound payload differing from the
stored one (including binding a previously unbound operation, or unbinding a
bound one) fails with `PayloadRebindingForbidden`; the call returns an error
and no state, so the mappings are unchanged. The second part states the same
through the `init_admin_op` wrapper. -/
theorem payload_rebinding_forbidden :
    (∀ (st : EngineState) (h caller w id exp : Nat) (payload : Option AdminOp)
        (ws : WalletSettings) (p : PendingSigningOp),
        exp ≠ 0 →
        alookup st.wallets w = some ws →
        completed_lookup st w id = none →
        pending_lookup st w id = some p →
        p.expires_at_block < h →
        payload ≠ p.bound_payload →
        initiate_core st h caller w id exp payload = .error .PayloadRebindingForbidden) ∧
    (∀ (st : EngineState) (h caller w id exp : Nat) (a : AdminOp)
        (ws : WalletSettings) (p : PendingSigningOp),
        exp ≠ 0 →
        admin_op_valid a = none →
        alookup st.wallets w = some ws →
        completed_lookup st w id = none →
        pending_lookup st w id = some p →
        p.expires_at_block < h →
        some a ≠ p.bound_payload →
        init_admin_op st h caller w id exp a = .error .PayloadRebindingForbidden) := by
  constructor
  · intro st h caller w id exp payload ws p hexp hw hc hp hst hne
    have hnl : ¬ h ≤ p.expires_at_block := by omega
    have hne2 : p.bound_payload ≠ payload := fun hh => hne hh.symm
    simp [initiate_core, hexp, hw, hc, hp, hnl, hne2]
  · intro st h caller w id exp a ws p hexp hav hw hc hp hst hne
    have hnl : ¬ h ≤ p.expires_at_block := by omega
    have hne2 : p.bound_payload ≠ some a := fun hh => hne hh.symm
    simp [init_admin_op, hav, initiate_core, hexp, hw, hc, hp, hnl, hne2]

/-- Witness for C6 at `sampleState`: the expired unbound operation 7 cannot
be re-initiated bound to a set-threshold admin payload. -/
theorem payload_rebinding_forbidden_witness :
    initiate_core sampleState 25 1 5 7 9
        (some { op := 1, threshold := 1, aleo_signer := 0, ecdsa_signer := 0 }) =
      .error .PayloadRebindingForbidden ∧
    init_admin_op sampleState 25 1 5 7 9
        { op := 1, threshold := 1, aleo_signer := 0, ecdsa_signer := 0 } =
      .error .PayloadRebindingForbidden :=
  ⟨payload_rebinding_forbidden.1 sampleState 25 1 5 7 9
      (some { op := 1, threshold := 1, aleo_signer := 0, ecdsa_signer := 0 })
      { threshold := 2, num_signers := 3 }
      { round := 1, confirmations := 1, expires_at_block := 20, bound_payload := none }
      (by decide) (by decide) (by decide) (by decide) (by decide) (by decide),
   payload_rebinding_forbidden.2 sampleState 25 1 5 7 9
      { op := 1, threshold := 1, aleo_signer := 0, ecdsa_signer := 0 }
      { threshold := 2, num_signers := 3 }
      { round := 1, confirmations := 1, expires_at_block := 20, bound_payload := none }
      (by decide) (by decide) (by decide) (by decide) (by decide) (by decide) (by decide)⟩

/-- C7: `create_wallet` rejects a threshold of 0 or above the active-signer
count with `InvalidThreshold` (the error carries no state, so no wallet
record is written), and both successful wallet creation and successful admin
mutations preserve the invariant `1 ≤ threshold ≤ num_signers` for every
wallet. -/
theorem threshold_invariant :
    (∀ (st : EngineState) (w t : Nat) (als ecs : List Nat) (ps : ProgramSettings),
        st.settings = some ps →
        alookup st.wallets w = none →
        (t = 0 ∨ countActive als + countActive ecs < t) →
        create_wallet st w t als ecs = .error .InvalidThreshold) ∧
    (∀ (st : EngineState) (w t : Nat) (als ecs : List Nat) (st2 : EngineState),
        wallets_ok st →
        create_wallet st w t als ecs = .ok st2 →
        wallets_ok st2) ∧
    (∀ (st : EngineState) (h w id : Nat) (a : AdminOp) (st2 : EngineState),
        wallets_ok st →
        exec_admin_op st h w id a = .ok st2 →
        wallets_ok st2) := by
  refine ⟨?_, ?_, ?_⟩
  · intro st w t als ecs ps hset hnone hbad
    simp [create_wallet, hset, hnone, hbad]
  · intro st w t als ecs st2 hok hrun
    cases hset : st.settings with
    | none => simp [create_wallet, hset] at hrun
    | some ps =>
      by_cases hdup : (alookup st.wallets w).isSome
      · simp [create_wallet, hset, hdup] at hrun
      · by_cases hthr : t = 0 ∨ countActive als + countActive ecs < t
        · simp [create_wallet, hset, hdup, hthr] at hrun
        · by_cases hguard : (ps.guard_create_wallet &&
              ! is_signing_complete st multisigCoreAddress
                  (getGuardedCreateWalletSigningOpId w t als ecs)) = true
          · simp [create_wallet, hset, hdup, hthr, hguard] at hrun
          · have hres : create_wallet st w t als ecs =
                .ok { st with
                        wallets := aset st.wallets w
                          { threshold := t
                            num_signers := countActive als + countActive ecs }
                        signers :=
                          (als.filter (fun x => decide (x ≠ 0))).foldl
                            (fun acc x => listInsert acc (w, SignerId.aleo x))
                            ((ecs.filter (fun e => decide (e ≠ 0))).foldl
                              (fun acc e => listInsert acc (w, SignerId.ecdsa e))
                              st.signers) } := by
              simp [create_wallet, hset, hdup, hthr, hguard]
            rw [hres, Except.ok.injEq] at hrun
            subst hrun
            intro kv hkv
            rcases mem_aset hkv with rfl | hmem
            · obtain ⟨ht0, hlt⟩ := not_or.mp hthr
              constructor <;> simp <;> omega
            · exact hok _ hmem
  · intro st h w id a st2 hok hrun
    cases hex : execute st h w id (some a) with
    | error e => simp [exec_admin_op, hex] at hrun
    | ok st1 =>
      obtain ⟨ws, p, hw, hp, _, _, _, rfl⟩ := execute_ok_inv hex
      have happ : apply_admin_op
          { st with
              pending := aremove st.pending (w, id)
              completed := cinsert st.completed (w, id) h } w ws a = .ok st2 := by
        rw [exec_admin_op, hex] at hrun
        simpa [hw] using hrun
      have hok1 : wallets_ok { st with
          pending := aremove st.pending (w, id)
          completed := cinsert st.completed (w, id) h } := hok
      have hw1 : alookup ({ st with
          pending := aremove st.pending (w, id)
          completed := cinsert st.completed (w, id) h } : EngineState).wallets w = some ws := hw
      exact apply_admin_op_preserves hok1 hw1 happ

/-- Witness for C7: an over-large threshold is rejected on `sampleState`, and
the executed set-threshold admin operation on `adminReadyState` leaves the
registry invariant intact. -/
theorem threshold_invariant_witness :
    create_wallet sampleState 6 3 [1, 2] [] = .error .InvalidThreshold ∧
    wallets_ok adminDoneState :=
  ⟨threshold_invariant.1 sampleState 6 3 [1, 2] []
      { guard_create_wallet := false } rfl (by decide) (by decide),
   threshold_invariant.2.2 adminReadyState 20 5 7
      { op := 1, threshold := 1, aleo_signer := 0, ecdsa_signer := 0 }
      adminDoneState (by decide) (by decide)⟩

/-- C8: an external signature produced by a key other than the claimed
address fails with `InvalidSignature` (an error carries no state, so
confirmations are not incremented); a correct signature by a configured
external signer on the still-pending operation succeeds and increments
confirmations; and a valid signature whose claimed address is not a
configured signer of the wallet fails with `UnknownSigner`. -/
theorem ecdsa_signature_checks :
    (∀ (st : EngineState) (h w id claimed nonce : Nat) (sig : EcdsaSig),
        sig.signer ≠ claimed →
        sign_ecdsa st h w id claimed sig nonce = .error .InvalidSignature) ∧
    (∀ (st : EngineState) (h w id claimed nonce : Nat) (sig : EcdsaSig)
        (ws : WalletSettings),
        alookup st.wallets w = some ws →
        sig.signer = claimed →
        sig.signed_msg = getSigningOpIdNonceHash w id nonce →
        is_wallet_signer st w (.ecdsa claimed) = false →
        sign_ecdsa st h w id claimed sig nonce = .error .UnknownSigner) ∧
    (∀ (st : EngineState) (h w id claimed nonce : Nat) (sig : EcdsaSig)
        (ws : WalletSettings) (p : PendingSigningOp),
        alookup st.wallets w = some ws →
        sig.signer = claimed →
        sig.signed_msg = getSigningOpIdNonceHash w id nonce →
        is_wallet_signer st w (.ecdsa claimed) = true →
        pending_lookup st w id = some p →
        h ≤ p.expires_at_block →
        has_voted st w id p.round (.ecdsa claimed) = false →
        ∃ st2, sign_ecdsa st h w id claimed sig nonce = .ok st2 ∧
          pending_lookup st2 w id =
            some { p with confirmations := p.confirmations + 1 }) := by
  refine ⟨?_, ?_, ?_⟩
  · intro st h w id claimed nonce sig hforged
    simp [sign_ecdsa, sign_ecdsa_core, ecdsa_recover_ok, hforged]
  · intro st h w id claimed nonce sig ws hw hs1 hs2 hnot
    simp [sign_ecdsa, sign_ecdsa_core, ecdsa_recover_ok, hs1, hs2, sign_core, hw, hnot]
  · intro st h w id claimed nonce sig ws p hw hs1 hs2 hsig hp hst hv
    have hred : sign_ecdsa st h w id claimed sig nonce =
        sign_core st h (.ecdsa claimed) w id none := by
      simp [sign_ecdsa, sign_ecdsa_core, ecdsa_recover_ok, hs1, hs2]
    rw [hred]
    refine ⟨_, sign_core_ok hw hsig hp hst rfl hv, ?_⟩
    simp [pending_lookup, alookup_aset]

/-- Witness for C8 at `sampleState`, whose external signer is address 21: a
signature by key 22 claiming address 21 is an invalid signature; a valid
signature by the non-configured address 22 is an unknown signer; a valid
signature by 21 succeeds. -/
theorem ecdsa_signature_checks_witness :
    sign_ecdsa sampleState 15 5 7 21 { signer := 22, signed_msg := 0 } 3 =
      .error .InvalidSignature ∧
    sign_ecdsa sampleState 15 5 7 22
        { signer := 22, signed_msg := getSigningOpIdNonceHash 5 7 3 } 3 =
      .error .UnknownSigner ∧
    ∃ st2, sign_ecdsa sampleState 15 5 7 21
        { signer := 21, signed_msg := getSigningOpIdNonceHash 5 7 3 } 3 = .ok st2 ∧
      pending_lookup st2 5 7 = some
        { round := 1, confirmations := 2, expires_at_block := 20, bound_payload := none } :=
  ⟨ecdsa_signature_checks.1 sampleState 15 5 7 21 3
      { signer := 22, signed_msg := 0 } (by decide),
   ecdsa_signature_checks.2.1 sampleState 15 5 7 22 3
      { signer := 22, signed_msg := getSigningOpIdNonceHash 5 7 3 }
      { threshold := 2, num_signers := 3 }
      (by decide) rfl rfl (by decide),
   ecdsa_signature_checks.2.2 sampleState 15 5 7 21 3
      { signer := 21, signed_msg := getSigningOpIdNonceHash 5 7 3 }
      { threshold := 2, num_signers := 3 }
      { round := 1, confirmations := 1, expires_at_block := 20, bound_payload := none }
      (by decide) rfl rfl (by decide) (by decide) (by decide) (by decide)⟩

/-- C9: a pending operation is signable exactly up to its expiry height: a
vote at `h = expires_at_block` succeeds, a vote at any greater height fails
with `OperationExpired`, and a successful initiation always records
`expires_at_block` as the initiation height plus the block expiration. -/
theorem expiry_boundary :
    (∀ (st : EngineState) (h : Nat) (s : SignerId) (w id : Nat)
        (ws : WalletSettings) (p : PendingSigningOp),
        alookup st.wallets w = some ws →
        is_wallet_signer st w s = true →
        pending_lookup st w id = some p →
        h = p.expires_at_block →
        has_voted st w id p.round s = false →
        ∃ st2, sign_core st h s w id none = .ok st2) ∧
    (∀ (st : EngineState) (h : Nat) (s : SignerId) (w id : Nat)
        (ws : WalletSettings) (p : PendingSigningOp),
        alookup st.wallets w = some ws →
        is_wallet_signer st w s = true →
        pending_lookup st w id = some p →
        p.expires_at_block < h →
        sign_core st h s w id none = .error .OperationExpired) ∧
    (∀ (st : EngineState) (h caller w id exp : Nat) (st2 : EngineState)
        (q : PendingSigningOp),
        initiate_signing_op st h caller w id exp = .ok st2 →
        pending_lookup st2 w id = some q →
        q.expires_at_block = h + exp) := by
  refine ⟨?_, ?_, ?_⟩
  · intro st h s w id ws p hw hs hp hh hv
    exact ⟨_, sign_core_ok hw hs hp (le_of_eq hh) rfl hv⟩
  · intro st h s w id ws p hw hs hp hst
    simp [sign_core, hw, hs, hp, hst]
  · intro st h caller w id exp st2 q hrun hq
    unfold initiate_signing_op at hrun
    by_cases hexp : exp = 0
    · simp [initiate_core, hexp] at hrun
    · cases hw : alookup st.wallets w with
      | none => simp [initiate_core, hexp, hw] at hrun
      | some ws =>
        cases hcc : completed_lookup st w id with
        | some c => simp [initiate_core, hexp, hw, hcc] at hrun
        | none =>
          cases hp : pending_lookup st w id with
          | none =>
            rw [initiate_core_fresh_ok hexp hw hcc hp, Except.ok.injEq] at hrun
            subst hrun
            simp [pending_lookup, alookup_aset] at hq
            rw [← hq]
          | some p =>
            by_cases hst : h ≤ p.expires_at_block
            · simp [initiate_core, hexp, hw, hcc, hp, hst] at hrun
            · by_cases hpl : p.bound_payload = none
              · rw [initiate_core_stale_ok hexp hw hcc hp (by omega) hpl,
                  Except.ok.injEq] at hrun
                subst hrun
                simp [pending_lookup, alookup_aset] at hq
                rw [← hq]
              · simp [initiate_core, hexp, hw, hcc, hp, hst, hpl] at hrun

/-- Witness for C9 at `sampleState` (operation expiring at block 20): signer
2 succeeds at block 20 and is rejected at block 21; the operation initiated
on `soloWalletState` at block 10 with expiration 5 expires at 15 = 10 + 5. -/
theorem expiry_boundary_witness :
    (∃ st2, sign_core sampleState 20 (.aleo 2) 5 7 none = .ok st2) ∧
    sign_core sampleState 21 (.aleo 2) 5 7 none = .error .OperationExpired ∧
    ({ round := 1, confirmations := 1, expires_at_block := 15, bound_payload := none }
        : PendingSigningOp).expires_at_block = 10 + 5 :=
  ⟨expiry_boundary.1 sampleState 20 (.aleo 2) 5 7
      { threshold := 2, num_signers := 3 }
      { round := 1, confirmations := 1, expires_at_block := 20, bound_payload := none }
      (by decide) (by decide) (by decide) (by decide) (by decide),
   expiry_boundary.2.1 sampleState 21 (.aleo 2) 5 7
      { threshold := 2, num_signers := 3 }
      { round := 1, confirmations := 1, expires_at_block := 20, bound_payload := none }
      (by decide) (by decide) (by decide) (by decide),
   expiry_boundary.2.2 soloWalletState 10 1 5 7 5 soloDoneState
      { round := 1, confirmations := 1, expires_at_block := 15, bound_payload := none }
      (by decide) (by decide)⟩

/-- C10: `initiate` accepts a block expiration equal to the u32 maximum
4294967295. With two signers and threshold 2, a signer initiates at height
10: the operation is written pending with `expires_at_block` equal to
4294967305, beyond the u32 range (the arithmetic is modelled without
wraparound, matching the passing test); the operation is not complete but
remains signable, and the second signer's vote at height 11 completes it. -/
theorem max_block_expiration_accepted :
    ((create_wallet (init_state false) 6 2 [1, 2] []).bind (fun st1 =>
      (initiate_signing_op st1 10 1 6 7 4294967295).bind (fun st2 =>
        (sign st2 11 2 6 7).map (fun st3 =>
          (pending_lookup st2 6 7, is_signing_complete st2 6 7,
           is_signing_complete st3 6 7))))) =
      .ok (some { round := 1, confirmations := 1
                  expires_at_block := 4294967305, bound_payload := none },
           false, true) := by
  decide

end MultisigCore
